import Mathlib

/-!
# Verification of the GenderDetection heuristic pipeline

Shallow embedding of `src/main.cpp`: the sliding-window skin-color face
detector (`SimpleFaceDetector`), the rule-based gender classifier
(`SimpleGenderClassifier`) and the console presenter (`ConsoleDisplay`).

Modelling conventions:
* 8-bit channel values and pixel coordinates are `ℕ`; C++ `int`
  arithmetic that can go negative is modelled with `ℤ` at the point of
  use (the skin rule, edge gradients).  C++ `double` arithmetic is
  modelled exactly over `ℚ`.
* An image is its dimensions together with a total pixel function; the
  C++ `getPixel` accesses `pixels[y*width+x]`, and every access the
  program performs is in bounds, so the function model is faithful.
* Loops that scan a rectangle clamped to the image
  (`for y = y0; y < y0+h && y < height; ...`) become explicit lists of
  the visited coordinates, in the same (row-major) order.
* `ℚ` division by zero yields 0; each place where the C++ divides is
  either guarded by the same test the source performs, or the 0 result
  coincides with the source's observable behaviour (a `NaN > c`
  comparison is false in C++, and here `0 > c` is likewise false for
  the positive thresholds used).
-/

/-- RGB pixel: three 8-bit channels (`unsigned char` in the source). -/
structure RGB where
  r : ℕ
  g : ℕ
  b : ℕ
deriving DecidableEq

/-- `SimpleImage`: width, height and the pixel raster.  The source stores a
row-major `vector<RGB>` indexed by `y*width+x`; we model the raster as a
total function on coordinates. -/
structure Image where
  width : ℕ
  height : ℕ
  pix : ℕ → ℕ → RGB

/-- `SimpleFaceDetector::FaceRect`: a candidate rectangle with confidence. -/
structure FaceRect where
  x : ℕ
  y : ℕ
  width : ℕ
  height : ℕ
  confidence : ℚ
deriving DecidableEq

/-- `SimpleGenderClassifier::GenderResult`. -/
structure GenderResult where
  gender : String
  confidence : ℚ
deriving DecidableEq

/-- One row of the clamped double loop: the pixels
`img.pix x y` for `x0 ≤ x < min (x0+w) img.width`, in visiting order. -/
def rowPixels (img : Image) (x0 y w : ℕ) : List RGB :=
  (List.range' x0 (min (x0 + w) img.width - x0)).map fun x => img.pix x y

/-- The rows visited by the clamped double loop
`for (y = y0; y < y0+h && y < height; y++) for (x = x0; x < x0+w && x < width; x++)`,
outer loop outermost. -/
def regionRows (img : Image) (x0 y0 w h : ℕ) : List (List RGB) :=
  (List.range' y0 (min (y0 + h) img.height - y0)).map fun y => rowPixels img x0 y w

/-- All pixels the double loop visits, flattened in visiting order (the
single `vector` the C++ code accumulates across both loops). -/
def regionPixels (img : Image) (x0 y0 w h : ℕ) : List RGB :=
  (regionRows img x0 y0 w h).flatten

/-- `SimpleFaceDetector::isSkinColor`: the fixed RGB skin rule.  The channel
values are promoted to `int` (here `ℤ`) before the subtractions. -/
def isSkinColor (p : RGB) : Bool :=
  let r : ℤ := (p.r : ℤ)
  let g : ℤ := (p.g : ℤ)
  let b : ℤ := (p.b : ℤ)
  decide (95 < r) && decide (40 < g) && decide (20 < b) &&
    decide (g < r) && decide (b < r) &&
    decide (15 < r - g) && decide (15 < |r - g|)

/-- `SimpleFaceDetector::hasSkinColor`: the fraction of the (clamped) window's
pixels passing the skin rule must exceed 0.3.  The two counters accumulate
across the nested loops; we total them row by row. -/
def hasSkinColor (img : Image) (startX startY w h : ℕ) : Bool :=
  let rows := regionRows img startX startY w h
  let skinPixels : ℕ := (rows.map fun row => (row.filter isSkinColor).length).sum
  let totalPixels : ℕ := (rows.map List.length).sum
  decide ((skinPixels : ℚ) / (totalPixels : ℚ) > 3 / 10)

/-- The values taken by a C++ loop `for (v = 0; v < bound; v += 10)`:
the multiples of 10 below `bound`, in increasing order. -/
def stepPositions (bound : ℕ) : List ℕ :=
  (List.range bound).filter fun v => v % 10 == 0

/-- `SimpleFaceDetector::findFaceCandidates`: slide a 60×60 window in steps
of 10 (the grayscale argument of the source is never read there). -/
def findFaceCandidates (img : Image) : List FaceRect :=
  (stepPositions (img.height - 60)).flatMap fun y =>
    (stepPositions (img.width - 60)).filterMap fun x =>
      if hasSkinColor img x y 60 60 then
        some ⟨x, y, 60, 60, 7 / 10⟩
      else
        none

/-- Integer intensity `(r+g+b)/3` (C++ `int` division truncates). -/
def intIntensity (p : RGB) : ℕ :=
  (p.r + p.g + p.b) / 3

/-- Mean of a list of rationals (0 for the empty list, by `ℚ`'s 0-division). -/
def listMean (l : List ℚ) : ℚ :=
  l.sum / l.length

/-- Population variance of a list of rationals. -/
def listVariance (l : List ℚ) : ℚ :=
  let m := listMean l
  ((l.map fun v => (v - m) * (v - m)).sum) / l.length

/-- `SimpleFaceDetector::hasVariation`: the integer intensities of the
(clamped) rectangle must have population variance above 100.  The mean and
the squared-deviation total accumulate across the nested loops; we total
them row by row. -/
def hasVariation (img : Image) (rect : FaceRect) : Bool :=
  let rows := (regionRows img rect.x rect.y rect.width rect.height).map
    fun row => row.map fun p => ((intIntensity p : ℚ))
  let n : ℕ := (rows.map List.length).sum
  if n = 0 then false
  else
    let m : ℚ := (rows.map List.sum).sum / (n : ℚ)
    let varsum : ℚ := (rows.map fun row => (row.map fun v => (v - m) * (v - m)).sum).sum
    decide (varsum / (n : ℚ) > 100)

/-- `SimpleFaceDetector::isLikelyFace`: aspect-ratio gate then variance gate. -/
def isLikelyFace (img : Image) (rect : FaceRect) : Bool :=
  let aspectRatio : ℚ := (rect.width : ℚ) / (rect.height : ℚ)
  if aspectRatio < 7 / 10 ∨ aspectRatio > 13 / 10 then false
  else hasVariation img rect

/-- `SimpleFaceDetector::detectFaces`: keep the sliding-window candidates
that pass `isLikelyFace`.  (The grayscale conversion the source computes is
never consumed by the candidate search.) -/
def detectFaces (img : Image) : List FaceRect :=
  (findFaceCandidates img).filter (isLikelyFace img)

/-- Per-pixel brightness `(r+g+b)/3.0` (C++ `double`, i.e. exact division). -/
def qIntensity (p : RGB) : ℚ :=
  ((p.r : ℚ) + (p.g : ℚ) + (p.b : ℚ)) / 3

/-- `SimpleGenderClassifier::getAverageBrightness`: mean of the per-pixel
`(r+g+b)/3.0` over the clamped region, 0 if it is empty. -/
def getAverageBrightness (img : Image) (face : FaceRect) : ℚ :=
  let rows := regionRows img face.x face.y face.width face.height
  let totalBrightness : ℚ := (rows.map fun row => (row.map qIntensity).sum).sum
  let pixelCount : ℕ := (rows.map List.length).sum
  if 0 < pixelCount then totalBrightness / (pixelCount : ℚ) else 0

/-- `SimpleGenderClassifier::getColorVariance`: population variance of the
per-pixel `(r+g+b)/3.0` over the clamped region, 0 if it is empty. -/
def getColorVariance (img : Image) (face : FaceRect) : ℚ :=
  let rows := (regionRows img face.x face.y face.width face.height).map
    fun row => row.map qIntensity
  let n : ℕ := (rows.map List.length).sum
  if n = 0 then 0
  else
    let m : ℚ := (rows.map List.sum).sum / (n : ℚ)
    ((rows.map fun row => (row.map fun v => (v - m) * (v - m)).sum).sum) / (n : ℚ)

/-- The edge gradient at `(x, y)`:
`|gray(x,y)-gray(x+1,y)| + |gray(x,y)-gray(x,y+1)|` with integer grays
`(r+g+b)/3` (the C++ subtracts `int`s, hence `ℤ`). -/
def gradientAt (img : Image) (x y : ℕ) : ℕ :=
  let c : ℤ := (intIntensity (img.pix x y) : ℤ)
  let rt : ℤ := (intIntensity (img.pix (x + 1) y) : ℤ)
  let bt : ℤ := (intIntensity (img.pix x (y + 1)) : ℤ)
  (c - rt).natAbs + (c - bt).natAbs

/-- The interior columns visited by `getEdgeDensity`:
`for (x = face.x+1; x < face.x+face.width-1 && x < width-1; x++)` — both the
first and the last column of the region are excluded, as is the image's own
last column. -/
def edgeCols (img : Image) (face : FaceRect) : List ℕ :=
  List.range' (face.x + 1) (min (face.x + face.width - 1) (img.width - 1) - (face.x + 1))

/-- The interior rows visited by `getEdgeDensity` (same shape as `edgeCols`). -/
def edgeRows (img : Image) (face : FaceRect) : List ℕ :=
  List.range' (face.y + 1) (min (face.y + face.height - 1) (img.height - 1) - (face.y + 1))

/-- `SimpleGenderClassifier::getEdgeDensity`: fraction of interior pixels
whose gradient exceeds 30 (0 when there are none).  `edgeCount` and
`totalPixels` accumulate across the nested loops; we total them row by row. -/
def getEdgeDensity (img : Image) (face : FaceRect) : ℚ :=
  let edgeCount : ℕ := ((edgeRows img face).map fun y =>
    ((edgeCols img face).filter fun x => decide (30 < gradientAt img x y)).length).sum
  let totalPixels : ℕ := ((edgeRows img face).map fun _ => (edgeCols img face).length).sum
  if 0 < totalPixels then (edgeCount : ℚ) / (totalPixels : ℚ) else 0

/-- `SimpleGenderClassifier::getSkinToneFeature`:
`(avgR - avgG) / (avgR + avgG + avgB)` of the per-channel means over the
clamped region, 0 if it is empty. -/
def getSkinToneFeature (img : Image) (face : FaceRect) : ℚ :=
  let rows := regionRows img face.x face.y face.width face.height
  let rSum : ℚ := (rows.map fun row => (row.map fun p => (p.r : ℚ)).sum).sum
  let gSum : ℚ := (rows.map fun row => (row.map fun p => (p.g : ℚ)).sum).sum
  let bSum : ℚ := (rows.map fun row => (row.map fun p => (p.b : ℚ)).sum).sum
  let pixelCount : ℕ := (rows.map List.length).sum
  if pixelCount = 0 then 0
  else
    let avgR : ℚ := rSum / (pixelCount : ℚ)
    let avgG : ℚ := gSum / (pixelCount : ℚ)
    let avgB : ℚ := bSum / (pixelCount : ℚ)
    (avgR - avgG) / (avgR + avgG + avgB)

/-- `SimpleGenderClassifier::extractFeatures`: the 4-element feature vector. -/
def extractFeatures (img : Image) (face : FaceRect) : List ℚ :=
  [getAverageBrightness img face,
   getColorVariance img face,
   getEdgeDensity img face,
   getSkinToneFeature img face]

/-- `SimpleGenderClassifier::calculateMaleScore`: neutral 0.5 for vectors
with fewer than 4 entries, else additive threshold scoring clamped to [0,1]. -/
def calculateMaleScore (features : List ℚ) : ℚ :=
  if features.length < 4 then 1 / 2
  else
    let s0 : ℚ := 1 / 2
    let s1 := if features.getD 0 0 > 120 then s0 + 1 / 10 else s0
    let s2 := if features.getD 1 0 > 200 then s1 + 3 / 20 else s1
    let s3 := if features.getD 2 0 > 3 / 10 then s2 + 1 / 5 else s2
    let s4 := if features.getD 3 0 > 1 / 10 then s3 + 1 / 10 else s3
    max 0 (min 1 s4)

/-- The label/confidence branch of `SimpleGenderClassifier::classifyGender`. -/
def classifyFromScore (maleScore : ℚ) : GenderResult :=
  if maleScore > 1 / 2 then ⟨"Male", maleScore⟩
  else ⟨"Female", 1 - maleScore⟩

/-- `SimpleGenderClassifier::classifyGender`. -/
def classifyGender (img : Image) (face : FaceRect) : GenderResult :=
  classifyFromScore (calculateMaleScore (extractFeatures img face))

/-- One per-face block printed by `ConsoleDisplay::displayResults`:
the 1-based face number, the rectangle (position and size) and the
classification result (gender and confidence). -/
structure FaceReport where
  index : ℕ
  face : FaceRect
  result : GenderResult
deriving DecidableEq

/-- The loop of `ConsoleDisplay::displayResults`:
`for (i = 0; i < faces.size() && i < results.size(); i++)` emits one block
per index present in both lists. -/
def displayAux : ℕ → List FaceRect → List GenderResult → List FaceReport
  | _, [], _ => []
  | _, _ :: _, [] => []
  | i, f :: fs, r :: rs => ⟨i + 1, f, r⟩ :: displayAux (i + 1) fs rs

/-- `ConsoleDisplay::displayResults`, restricted to its per-face output. -/
def displayResults (faces : List FaceRect) (results : List GenderResult) :
    List FaceReport :=
  displayAux 0 faces results

/-- Skin tone used by the source's own test image (r=220, g=180, b=140). -/
def skinC : RGB := ⟨220, 180, 140⟩

/-- A second, darker color that also passes the skin rule (r=150, g=60, b=40). -/
def skinD : RGB := ⟨150, 60, 40⟩

/-- Black, which fails the skin rule. -/
def blackC : RGB := ⟨0, 0, 0⟩

/-- A 61×61 raster checkerboarding two skin tones: skin-colored everywhere
with per-pixel texture (noise), so window variance is large. -/
def img61 : Image :=
  ⟨61, 61, fun x y => if (x + y) % 2 = 0 then skinC else skinD⟩

/-- A 61×61 raster whose pixels with `x ≥ 1 ∧ y ≥ 1` form a perfectly
uniform 60×60 solid skin-colored block (color `skinC`, no internal
texture); the first row and column hold the darker skin tone `skinD`. -/
def imgBorder : Image :=
  ⟨61, 61, fun x y => if 1 ≤ x ∧ 1 ≤ y then skinC else skinD⟩

/-- A 60×60 raster checkerboarding two skin tones — the most favorable
60×60 input for the detector. -/
def imgSixty : Image :=
  ⟨60, 60, fun x y => if (x + y) % 2 = 0 then skinC else skinD⟩

/-- A 100×80 raster uniformly colored a non-skin blue. -/
def imgBlue : Image :=
  ⟨100, 80, fun _ _ => ⟨0, 0, 255⟩⟩

/-- A 70×70 raster uniformly colored the skin tone `skinC`. -/
def imgSkinUniform : Image :=
  ⟨70, 70, fun _ _ => skinC⟩

/-- A 50×100 raster (width below 60), uniformly skin-colored. -/
def imgSmall : Image :=
  ⟨50, 100, fun _ _ => skinC⟩

/-- A 4×4 raster: black at the origin, mid gray elsewhere. -/
def img4 : Image :=
  ⟨4, 4, fun x y => if x = 0 ∧ y = 0 then blackC else ⟨100, 100, 100⟩⟩

/-- A 3×3 region at the origin of `img4`. -/
def rect3 : FaceRect :=
  ⟨0, 0, 3, 3, 0⟩

/-- Two candidate rectangles, for exercising the presenter. -/
def facesTwo : List FaceRect :=
  [⟨0, 0, 60, 60, 7 / 10⟩, ⟨10, 0, 60, 60, 7 / 10⟩]

/-- One classification result, for exercising the presenter. -/
def resultsOne : List GenderResult :=
  [⟨"Male", 1⟩]

/-- The feature list of a region, flattened in visiting order (used to state
the Feature Scorer claims over the single accumulated vector). -/
def regionQIntensities (img : Image) (face : FaceRect) : List ℚ :=
  (regionPixels img face.x face.y face.width face.height).map qIntensity

/-- Stated from the claim's words: mean brightness is the average of the
per-pixel `(R+G+B)/3` over all region pixels. -/
def meanBrightnessSpec (img : Image) (face : FaceRect) : ℚ :=
  listMean (regionQIntensities img face)

/-- Stated from the claim's words: intensity variance is the population
variance of the per-pixel `(R+G+B)/3` over all region pixels. -/
def intensityVarianceSpec (img : Image) (face : FaceRect) : ℚ :=
  listVariance (regionQIntensities img face)

/-- Stated from the claim's words: edge density as the fraction of the
region's pixels excluding only its LAST row and column (clamped to pixels
whose right/bottom neighbors exist in the raster) whose gradient exceeds 30.
This is the comparison definition for the claim; the source also excludes
the FIRST row and column. -/
def edgeDensityClaimed (img : Image) (face : FaceRect) : ℚ :=
  let cells :=
    (List.range' face.y (min (face.y + face.height - 1) (img.height - 1) - face.y)).flatMap
      fun y =>
        (List.range' face.x (min (face.x + face.width - 1) (img.width - 1) - face.x)).map
          fun x => (x, y)
  ((cells.filter fun c => decide (30 < gradientAt img c.1 c.2)).length : ℚ) /
    (cells.length : ℚ)

/-- The amended reading of edge density: the fraction of the region's pixels
excluding both its first and last rows and columns (clamped as the source
clamps), whose gradient exceeds 30, over the flattened cell list. -/
def edgeDensityInterior (img : Image) (face : FaceRect) : ℚ :=
  let cells := (edgeRows img face).flatMap fun y =>
    (edgeCols img face).map fun x => (x, y)
  ((cells.filter fun c => decide (30 < gradientAt img c.1 c.2)).length : ℚ) /
    (cells.length : ℚ)

/-- Stated from the claim's words: skin-tone ratio
`(meanR - meanG) / (meanR + meanG + meanB)` of the per-channel means over
all region pixels, 0 when the region is empty. -/
def skinToneSpec (img : Image) (face : FaceRect) : ℚ :=
  let px := regionPixels img face.x face.y face.width face.height
  if px.length = 0 then 0
  else
    let meanR : ℚ := ((px.map fun p => (p.r : ℚ)).sum) / (px.length : ℚ)
    let meanG : ℚ := ((px.map fun p => (p.g : ℚ)).sum) / (px.length : ℚ)
    let meanB : ℚ := ((px.map fun p => (p.b : ℚ)).sum) / (px.length : ℚ)
    (meanR - meanG) / (meanR + meanG + meanB)

/-! ## List helper lemmas -/

lemma flatMap_nil_of_forall {α β : Type} (l : List α) (f : α → List β)
    (h : ∀ a ∈ l, f a = []) : l.flatMap f = [] := by
  induction l with
  | nil => rfl
  | cons a l ih =>
    simp only [List.flatMap_cons, h a (List.mem_cons_self a l), List.nil_append]
    exact ih fun b hb => h b (List.mem_cons_of_mem a hb)

lemma filterMap_nil_of_forall {α β : Type} (l : List α) (f : α → Option β)
    (h : ∀ a ∈ l, f a = none) : l.filterMap f = [] := by
  induction l with
  | nil => rfl
  | cons a l ih =>
    rw [List.filterMap_cons, h a (List.mem_cons_self a l)]
    exact ih fun b hb => h b (List.mem_cons_of_mem a hb)

lemma sum_const_of_forall (l : List ℚ) (c : ℚ) (h : ∀ v ∈ l, v = c) :
    l.sum = l.length * c := by
  induction l with
  | nil => simp
  | cons a l ih =>
    have ha := h a (List.mem_cons_self a l)
    have := ih fun b hb => h b (List.mem_cons_of_mem a hb)
    simp [ha, this]
    ring

lemma nested_length_eq_flat {α : Type} (L : List (List α)) :
    (L.map List.length).sum = L.flatten.length :=
  (List.length_flatten L).symm

lemma nested_filter_length_eq_flat {α : Type} (L : List (List α)) (p : α → Bool) :
    (L.map fun row => (row.filter p).length).sum = (L.flatten.filter p).length := by
  induction L with
  | nil => rfl
  | cons row L ih =>
    simp only [List.map_cons, List.sum_cons, List.flatten_cons, List.filter_append,
      List.length_append, ih]

lemma nested_sum_eq_flat (L : List (List ℚ)) :
    (L.map List.sum).sum = L.flatten.sum := by
  induction L with
  | nil => rfl
  | cons row L ih =>
    simp only [List.map_cons, List.sum_cons, List.flatten_cons, List.sum_append, ih]

lemma nested_map_sum_eq_flat {α : Type} (L : List (List α)) (g : α → ℚ) :
    (L.map fun row => (row.map g).sum).sum = (L.flatten.map g).sum := by
  induction L with
  | nil => rfl
  | cons row L ih =>
    simp only [List.map_cons, List.sum_cons, List.flatten_cons, List.map_append,
      List.sum_append, ih]

lemma flatten_map_map {α β : Type} (L : List (List α)) (f : α → β) :
    ((L.map fun row => row.map f).flatten) = L.flatten.map f := by
  induction L with
  | nil => rfl
  | cons row L ih =>
    simp only [List.map_cons, List.flatten_cons, List.map_append, ih]

/-! ## Region membership -/

lemma regionRows_pixel {img : Image} {x0 y0 w h : ℕ} {row : List RGB} {p : RGB}
    (hrow : row ∈ regionRows img x0 y0 w h) (hp : p ∈ row) :
    ∃ x y, x < img.width ∧ y < img.height ∧ p = img.pix x y := by
  simp only [regionRows, List.mem_map] at hrow
  obtain ⟨y, hy, rfl⟩ := hrow
  simp only [rowPixels, List.mem_map] at hp
  obtain ⟨x, hx, rfl⟩ := hp
  rw [List.mem_range'_1] at hy hx
  have hyW := Nat.min_le_right (y0 + h) img.height
  have hxW := Nat.min_le_right (x0 + w) img.width
  exact ⟨x, y, by omega, by omega, rfl⟩

lemma regionPixels_pixel {img : Image} {x0 y0 w h : ℕ} {p : RGB}
    (hp : p ∈ regionPixels img x0 y0 w h) :
    ∃ x y, x < img.width ∧ y < img.height ∧ p = img.pix x y := by
  simp only [regionPixels, List.mem_flatten] at hp
  obtain ⟨row, hrow, hp⟩ := hp
  exact regionRows_pixel hrow hp

/-! ## Skin-fraction lemmas -/

lemma hasSkinColor_eq_flat (img : Image) (x0 y0 w h : ℕ) :
    hasSkinColor img x0 y0 w h =
      decide ((((regionPixels img x0 y0 w h).filter isSkinColor).length : ℚ) /
        ((regionPixels img x0 y0 w h).length : ℚ) > 3 / 10) := by
  simp only [hasSkinColor, regionPixels, nested_filter_length_eq_flat,
    nested_length_eq_flat]

lemma hasSkinColor_of_forall_skin {img : Image} {x0 y0 w h : ℕ}
    (H : ∀ p ∈ regionPixels img x0 y0 w h, isSkinColor p = true)
    (hn : (regionPixels img x0 y0 w h).length ≠ 0) :
    hasSkinColor img x0 y0 w h = true := by
  rw [hasSkinColor_eq_flat, List.filter_eq_self.mpr H, decide_eq_true_eq,
    div_self (by exact_mod_cast hn)]
  norm_num

lemma hasSkinColor_of_forall_not_skin {img : Image} {x0 y0 w h : ℕ}
    (H : ∀ p ∈ regionPixels img x0 y0 w h, isSkinColor p = false) :
    hasSkinColor img x0 y0 w h = false := by
  rw [hasSkinColor_eq_flat, decide_eq_false_iff_not]
  rw [List.filter_eq_nil_iff.mpr (by simpa using H)]
  norm_num

lemma exists_skin_of_hasSkinColor {img : Image} {x0 y0 w h : ℕ}
    (H : hasSkinColor img x0 y0 w h = true) :
    ∃ p ∈ regionPixels img x0 y0 w h, isSkinColor p = true := by
  by_contra hno
  push_neg at hno
  rw [hasSkinColor_of_forall_not_skin
    (fun p hp => by simpa using hno p hp)] at H
  exact Bool.false_ne_true H

/-! ## Variance lemmas -/

lemma listVariance_nil : listVariance [] = 0 := by
  simp [listVariance, listMean]

lemma hasVariation_eq_flat (img : Image) (rect : FaceRect) :
    hasVariation img rect =
      decide (listVariance ((regionPixels img rect.x rect.y rect.width rect.height).map
        fun p => ((intIntensity p : ℚ))) > 100) := by
  simp only [hasVariation]
  set R := regionRows img rect.x rect.y rect.width rect.height with hR
  have hflat : ((R.map fun row => row.map fun p => ((intIntensity p : ℚ))).flatten)
      = (regionPixels img rect.x rect.y rect.width rect.height).map
        fun p => ((intIntensity p : ℚ)) := by
    rw [flatten_map_map]; rfl
  have hlen : (((R.map fun row => row.map fun p => ((intIntensity p : ℚ))).map
      List.length).sum)
      = ((regionPixels img rect.x rect.y rect.width rect.height).map
        fun p => ((intIntensity p : ℚ))).length := by
    rw [nested_length_eq_flat, hflat]
  rw [hlen]
  set l := (regionPixels img rect.x rect.y rect.width rect.height).map
    fun p => ((intIntensity p : ℚ)) with hl
  by_cases h0 : l.length = 0
  · rw [if_pos h0]
    rw [List.length_eq_zero] at h0
    rw [h0, listVariance_nil]
    norm_num
  · rw [if_neg h0]
    have hsum : ((R.map fun row => row.map fun p => ((intIntensity p : ℚ))).map
        List.sum).sum = l.sum := by
      rw [nested_sum_eq_flat, hflat]
    rw [hsum]
    have hmean : l.sum / (l.length : ℚ) = listMean l := rfl
    rw [hmean]
    congr 1
    have hvs : ((R.map fun row => row.map fun p => ((intIntensity p : ℚ))).map
        fun row => (row.map fun v => (v - listMean l) * (v - listMean l)).sum).sum
        = (l.map fun v => (v - listMean l) * (v - listMean l)).sum := by
      rw [nested_map_sum_eq_flat, hflat]
    rw [hvs, listVariance]

/-! ## Candidate membership -/

lemma mem_stepPositions {bound v : ℕ} :
    v ∈ stepPositions bound ↔ v < bound ∧ v % 10 = 0 := by
  simp [stepPositions, List.mem_filter, List.mem_range, Nat.beq_eq_true_eq]

lemma mem_findFaceCandidates {img : Image} {r : FaceRect} :
    r ∈ findFaceCandidates img ↔
      r.width = 60 ∧ r.height = 60 ∧ r.confidence = 7 / 10 ∧
      r.x % 10 = 0 ∧ r.y % 10 = 0 ∧
      r.x < img.width - 60 ∧ r.y < img.height - 60 ∧
      hasSkinColor img r.x r.y 60 60 = true := by
  simp only [findFaceCandidates, List.mem_flatMap, List.mem_filterMap]
  constructor
  · rintro ⟨y, hy, x, hx, hopt⟩
    rw [mem_stepPositions] at hy hx
    by_cases hs : hasSkinColor img x y 60 60 = true
    · rw [if_pos hs] at hopt
      cases hopt
      exact ⟨rfl, rfl, rfl, hx.2, hy.2, hx.1, hy.1, hs⟩
    · rw [if_neg hs] at hopt
      cases hopt
  · rintro ⟨hw, hh, hc, hx10, hy10, hxlt, hylt, hs⟩
    refine ⟨r.y, mem_stepPositions.mpr ⟨hylt, hy10⟩,
      r.x, mem_stepPositions.mpr ⟨hxlt, hx10⟩, ?_⟩
    rw [if_pos hs]
    obtain ⟨x, y, w, h, c⟩ := r
    simp_all

lemma mem_detectFaces {img : Image} {r : FaceRect} :
    r ∈ detectFaces img ↔ r ∈ findFaceCandidates img ∧ isLikelyFace img r = true := by
  simp [detectFaces, List.mem_filter]

/-! ## Empty and uniform rasters -/

lemma findFaceCandidates_eq_nil_of_small {img : Image}
    (h : img.width ≤ 60 ∨ img.height ≤ 60) : findFaceCandidates img = [] := by
  rcases h with h | h
  · refine flatMap_nil_of_forall _ _ fun y _ => ?_
    refine filterMap_nil_of_forall _ _ fun x hx => ?_
    rw [mem_stepPositions] at hx
    omega
  · have : img.height - 60 = 0 := by omega
    simp [findFaceCandidates, this, stepPositions]

lemma isLikelyFace_sixty (img : Image) (r : FaceRect)
    (hw : r.width = 60) (hh : r.height = 60) :
    isLikelyFace img r = hasVariation img r := by
  simp only [isLikelyFace, hw, hh]
  rw [if_neg]
  norm_num

lemma sum_zero_of_forall (l : List ℚ) (h : ∀ v ∈ l, v = 0) : l.sum = 0 := by
  rw [sum_const_of_forall l 0 h, mul_zero]

lemma hasVariation_const {img : Image} {rect : FaceRect} {c : RGB}
    (H : ∀ p ∈ regionPixels img rect.x rect.y rect.width rect.height, p = c) :
    hasVariation img rect = false := by
  rw [hasVariation_eq_flat, decide_eq_false_iff_not]
  set l := (regionPixels img rect.x rect.y rect.width rect.height).map
    fun p => ((intIntensity p : ℚ)) with hl
  have hall : ∀ v ∈ l, v = ((intIntensity c : ℚ)) := by
    intro v hv
    rw [hl, List.mem_map] at hv
    obtain ⟨p, hp, rfl⟩ := hv
    rw [H p hp]
  by_cases h0 : l.length = 0
  · rw [List.length_eq_zero] at h0
    rw [h0, listVariance_nil]
    norm_num
  · have hsum : l.sum = l.length * ((intIntensity c : ℚ)) := sum_const_of_forall _ _ hall
    have hmean : listMean l = ((intIntensity c : ℚ)) := by
      rw [listMean, hsum]
      exact mul_div_cancel_left₀ _ (by exact_mod_cast h0)
    have hvar : listVariance l = 0 := by
      rw [listVariance, hmean]
      rw [sum_zero_of_forall _ ?_, zero_div]
      intro v hv
      rw [List.mem_map] at hv
      obtain ⟨u, hu, rfl⟩ := hv
      rw [hall u hu]
      ring
    rw [hvar]
    norm_num

lemma detectFaces_eq_nil_of_uniform {img : Image} {c : RGB}
    (H : ∀ x y, x < img.width → y < img.height → img.pix x y = c) :
    detectFaces img = [] := by
  rw [detectFaces, List.filter_eq_nil_iff]
  intro r hr
  rw [mem_findFaceCandidates] at hr
  obtain ⟨hw, hh, -, -, -, -, -, -⟩ := hr
  rw [isLikelyFace_sixty img r hw hh]
  rw [hasVariation_const (c := c) ?_]
  · simp
  · intro p hp
    obtain ⟨x, y, hx, hy, rfl⟩ := regionPixels_pixel hp
    exact H x y hx hy

lemma findFaceCandidates_eq_nil_of_uniform_not_skin {img : Image} {c : RGB}
    (H : ∀ x y, x < img.width → y < img.height → img.pix x y = c)
    (hc : isSkinColor c = false) : findFaceCandidates img = [] := by
  refine flatMap_nil_of_forall _ _ fun y _ => ?_
  refine filterMap_nil_of_forall _ _ fun x _ => ?_
  rw [if_neg]
  rw [hasSkinColor_of_forall_not_skin]
  · simp
  · intro p hp
    obtain ⟨x', y', hx', hy', rfl⟩ := regionPixels_pixel hp
    rw [H x' y' hx' hy']
    exact hc

/-! ## Concrete images: the 61×61 noisy skin raster and the bordered block -/

lemma skin_img61 : hasSkinColor img61 0 0 60 60 = true := by
  refine hasSkinColor_of_forall_skin (fun p hp => ?_) ?_
  · obtain ⟨x, y, hx, hy, rfl⟩ := regionPixels_pixel hp
    by_cases h : (x + y) % 2 = 0
    · simp only [img61, if_pos h]
      decide
    · simp only [img61, if_neg h]
      decide
  · rw [regionPixels, ← nested_length_eq_flat]
    decide

lemma skin_imgBorder : hasSkinColor imgBorder 0 0 60 60 = true := by
  refine hasSkinColor_of_forall_skin (fun p hp => ?_) ?_
  · obtain ⟨x, y, hx, hy, rfl⟩ := regionPixels_pixel hp
    by_cases h : 1 ≤ x ∧ 1 ≤ y
    · simp only [imgBorder, if_pos h]
      decide
    · simp only [imgBorder, if_neg h]
      decide
  · rw [regionPixels, ← nested_length_eq_flat]
    decide

lemma candidates_img61 : findFaceCandidates img61 = [⟨0, 0, 60, 60, 7 / 10⟩] := by
  rw [findFaceCandidates]
  have h1 : stepPositions (img61.height - 60) = [0] := by decide
  have h2 : stepPositions (img61.width - 60) = [0] := by decide
  rw [h1, h2]
  simp [skin_img61]

lemma candidates_imgBorder : findFaceCandidates imgBorder = [⟨0, 0, 60, 60, 7 / 10⟩] := by
  rw [findFaceCandidates]
  have h1 : stepPositions (imgBorder.height - 60) = [0] := by decide
  have h2 : stepPositions (imgBorder.width - 60) = [0] := by decide
  rw [h1, h2]
  simp [skin_imgBorder]

set_option maxRecDepth 200000 in
set_option maxHeartbeats 4000000 in
lemma var_img61 : hasVariation img61 ⟨0, 0, 60, 60, 7 / 10⟩ = true := by
  with_unfolding_all decide

set_option maxRecDepth 200000 in
set_option maxHeartbeats 4000000 in
lemma var_imgBorder : hasVariation imgBorder ⟨0, 0, 60, 60, 7 / 10⟩ = true := by
  with_unfolding_all decide

lemma detect_img61 : detectFaces img61 = [⟨0, 0, 60, 60, 7 / 10⟩] := by
  rw [detectFaces, candidates_img61]
  have h : isLikelyFace img61 ⟨0, 0, 60, 60, 7 / 10⟩ = true := by
    rw [isLikelyFace_sixty _ _ rfl rfl]
    exact var_img61
  simp [h]

lemma detect_imgBorder : detectFaces imgBorder = [⟨0, 0, 60, 60, 7 / 10⟩] := by
  rw [detectFaces, candidates_imgBorder]
  have h : isLikelyFace imgBorder ⟨0, 0, 60, 60, 7 / 10⟩ = true := by
    rw [isLikelyFace_sixty _ _ rfl rfl]
    exact var_imgBorder
  simp [h]

/-! ## Presenter loop lemmas -/

lemma displayAux_length : ∀ (k : ℕ) (fs : List FaceRect) (rs : List GenderResult),
    (displayAux k fs rs).length = min fs.length rs.length := by
  intro k fs
  induction fs generalizing k with
  | nil => intro rs; simp [displayAux]
  | cons f fs ih =>
    intro rs
    cases rs with
    | nil => simp [displayAux]
    | cons r rs =>
      simp only [displayAux, List.length_cons, ih]
      omega

lemma displayAux_getElem? : ∀ (k : ℕ) (fs : List FaceRect) (rs : List GenderResult)
    (i : ℕ) (h₁ : i < fs.length) (h₂ : i < rs.length),
    (displayAux k fs rs)[i]? = some ⟨k + i + 1, fs[i], rs[i]⟩ := by
  intro k fs
  induction fs generalizing k with
  | nil => intro rs i h₁ h₂; simp at h₁
  | cons f fs ih =>
    intro rs i h₁ h₂
    cases rs with
    | nil => simp at h₂
    | cons r rs =>
      cases i with
      | zero => simp [displayAux]
      | succ i =>
        simp only [displayAux, List.getElem?_cons_succ, List.getElem_cons_succ]
        rw [ih (k + 1) rs i (by simpa using h₁) (by simpa using h₂)]
        congr 2
        omega

/-! ## Claim theorems -/

/-- C1.  For every 4-element feature vector `[b, v, e, s]`, the classifier
score equals the clamped additive rule
`clamp(0.5 + 0.1·[b>120] + 0.15·[v>200] + 0.2·[e>0.3] + 0.1·[s>0.1])`,
always lies in `[0, 1]`, and the returned label/confidence is "Male" with
the score when the score exceeds 0.5 and otherwise "Female" with one minus
the score. -/
theorem spec_c1_score_clamped_and_labels : ∀ b v e s : ℚ,
    calculateMaleScore [b, v, e, s] =
      max 0 (min 1 ((1 : ℚ) / 2 + (if b > 120 then (1 : ℚ) / 10 else 0) +
        (if v > 200 then (3 : ℚ) / 20 else 0) +
        (if e > 3 / 10 then (1 : ℚ) / 5 else 0) +
        (if s > 1 / 10 then (1 : ℚ) / 10 else 0))) ∧
    0 ≤ calculateMaleScore [b, v, e, s] ∧
    calculateMaleScore [b, v, e, s] ≤ 1 ∧
    classifyFromScore (calculateMaleScore [b, v, e, s]) =
      (if calculateMaleScore [b, v, e, s] > 1 / 2 then
        ⟨"Male", calculateMaleScore [b, v, e, s]⟩
      else ⟨"Female", 1 - calculateMaleScore [b, v, e, s]⟩) := by
  intro b v e s
  have heq : calculateMaleScore [b, v, e, s] =
      max 0 (min 1 ((1 : ℚ) / 2 + (if b > 120 then (1 : ℚ) / 10 else 0) +
        (if v > 200 then (3 : ℚ) / 20 else 0) +
        (if e > 3 / 10 then (1 : ℚ) / 5 else 0) +
        (if s > 1 / 10 then (1 : ℚ) / 10 else 0))) := by
    rw [calculateMaleScore, if_neg (by simp)]
    simp only [List.getD_cons_zero, List.getD_cons_succ]
    split_ifs <;> norm_num
  refine ⟨heq, ?_, ?_, rfl⟩
  · rw [heq]; exact le_max_left 0 _
  · rw [heq]
    exact max_le (by norm_num) (min_le_left 1 _)

/-- C4 counterexample.  A 5-element feature vector does not get the neutral
fallback: the source only checks `size() < 4`, so `[125, 210, 0.35, 0.15, 0]`
scores 1 and is labelled "Male" with confidence 1, not "Female"/0.5. -/
theorem spec_c4_counterexample :
    ([125, 210, 7 / 20, 3 / 20, 0] : List ℚ).length ≠ 4 ∧
    calculateMaleScore [125, 210, 7 / 20, 3 / 20, 0] = 1 ∧
    classifyFromScore (calculateMaleScore [125, 210, 7 / 20, 3 / 20, 0]) =
      ⟨"Male", 1⟩ := by
  refine ⟨by decide, ?_, ?_⟩ <;> with_unfolding_all decide

/-- C4 amended.  The classifier returns the neutral fallback (score 0.5,
label "Female", confidence 0.5) exactly for feature vectors with FEWER than
4 elements; a vector with 4 or more elements is scored from its first four
elements. -/
theorem spec_c4_fallback_amended : ∀ fs : List ℚ,
    (fs.length < 4 →
      calculateMaleScore fs = 1 / 2 ∧
      classifyFromScore (calculateMaleScore fs) = ⟨"Female", 1 / 2⟩) ∧
    (4 ≤ fs.length →
      calculateMaleScore fs = calculateMaleScore (fs.take 4)) := by
  intro fs
  constructor
  · intro hlen
    have h1 : calculateMaleScore fs = 1 / 2 := by
      rw [calculateMaleScore, if_pos hlen]
    refine ⟨h1, ?_⟩
    rw [h1, classifyFromScore, if_neg (by norm_num)]
    norm_num
  · intro hlen
    match fs, hlen with
    | a :: b :: c :: d :: rest, _ =>
      simp only [List.take_succ_cons, List.take_zero]
      rw [calculateMaleScore, calculateMaleScore]
      rw [if_neg (by simp only [List.length_cons]; omega),
        if_neg (by simp only [List.length_cons, List.length_nil]; omega)]
      simp only [List.getD_cons_zero, List.getD_cons_succ]

/-- C4 witness: the amended theorem applied to the empty vector and to a
5-element vector. -/
theorem spec_c4_fallback_witness :
    (calculateMaleScore [] = 1 / 2 ∧
      classifyFromScore (calculateMaleScore []) = ⟨"Female", 1 / 2⟩) ∧
    calculateMaleScore [125, 210, 7 / 20, 3 / 20, 99] =
      calculateMaleScore ([125, 210, 7 / 20, 3 / 20, 99].take 4) :=
  ⟨(spec_c4_fallback_amended []).1 (by decide),
   (spec_c4_fallback_amended [125, 210, 7 / 20, 3 / 20, 99]).2 (by decide)⟩

/-- C7.  The Feature Scorer is a pure function in this embedding: two
invocations on the same raster and region give the same 4-element vector,
and the output always has exactly 4 entries.  (Statefulness cannot arise:
the source reads only its arguments and writes only locals.) -/
theorem spec_c7_scorer_deterministic : ∀ (img : Image) (face : FaceRect),
    extractFeatures img face = extractFeatures img face ∧
    (extractFeatures img face).length = 4 :=
  fun _ _ => ⟨rfl, rfl⟩

/-- C8.  The presenter reports exactly one block per index present in both
lists — `min` of the lengths — with block `i` holding the 1-based index
`i+1`, the `i`-th face and the `i`-th result; indices beyond the shorter
list are not reported. -/
theorem spec_c8_presenter_min_length : ∀ (faces : List FaceRect) (results : List GenderResult),
    (displayResults faces results).length = min faces.length results.length ∧
    ∀ i : ℕ, ∀ h₁ : i < faces.length, ∀ h₂ : i < results.length,
      (displayResults faces results)[i]? = some ⟨i + 1, faces[i], results[i]⟩ := by
  intro faces results
  refine ⟨displayAux_length 0 faces results, fun i h₁ h₂ => ?_⟩
  rw [displayResults, displayAux_getElem? 0 faces results i h₁ h₂]
  simp

/-- C8 witness: a 2-element face list against a 1-element result list
reports exactly one block, for index 0. -/
theorem spec_c8_presenter_witness :
    (displayResults facesTwo resultsOne).length = min facesTwo.length resultsOne.length ∧
    (displayResults facesTwo resultsOne)[0]? =
      some ⟨1, ⟨0, 0, 60, 60, 7 / 10⟩, ⟨"Male", 1⟩⟩ := by
  refine ⟨(spec_c8_presenter_min_length facesTwo resultsOne).1, ?_⟩
  have h := (spec_c8_presenter_min_length facesTwo resultsOne).2 0 (by decide) (by decide)
  simpa [facesTwo, resultsOne] using h

/-! ## Skin-tone feature bridge -/

lemma skinTone_eq_spec (img : Image) (r : FaceRect) :
    getSkinToneFeature img r = skinToneSpec img r := by
  simp only [getSkinToneFeature, skinToneSpec, regionPixels,
    nested_map_sum_eq_flat, nested_length_eq_flat]

/-- C2.  The sliding-window locator's exact behaviour: a rectangle is a
candidate iff it is a 60×60, confidence-0.7 window at a step position whose
skin-pixel fraction exceeds 0.3; a pixel passes the skin rule iff
`r>95 ∧ g>40 ∧ b>20 ∧ r>g ∧ r>b ∧ r−g>15`; and the post-filter rejects a
candidate iff its aspect ratio leaves `[0.7, 1.3]` or its intensity variance
is at most 100.  (The locator is a pure function of the raster in this
embedding, so determinism and statelessness hold by construction.) -/
theorem spec_c2_locator_behaviour : ∀ (img : Image) (r : FaceRect) (p : RGB),
    (r ∈ findFaceCandidates img ↔
      r.width = 60 ∧ r.height = 60 ∧ r.confidence = 7 / 10 ∧
      r.x % 10 = 0 ∧ r.y % 10 = 0 ∧
      r.x < img.width - 60 ∧ r.y < img.height - 60 ∧
      (((regionPixels img r.x r.y 60 60).filter isSkinColor).length : ℚ) /
        ((regionPixels img r.x r.y 60 60).length : ℚ) > 3 / 10) ∧
    (isSkinColor p = true ↔
      95 < p.r ∧ 40 < p.g ∧ 20 < p.b ∧ p.g < p.r ∧ p.b < p.r ∧ 15 < p.r - p.g) ∧
    (isLikelyFace img r = false ↔
      (r.width : ℚ) / (r.height : ℚ) < 7 / 10 ∨
      (r.width : ℚ) / (r.height : ℚ) > 13 / 10 ∨
      listVariance ((regionPixels img r.x r.y r.width r.height).map
        fun q => ((intIntensity q : ℚ))) ≤ 100) := by
  intro img r p
  refine ⟨?_, ?_, ?_⟩
  · rw [mem_findFaceCandidates, hasSkinColor_eq_flat, decide_eq_true_eq]
  · simp only [isSkinColor, Bool.and_eq_true, decide_eq_true_eq, Int.abs_eq_natAbs]
    omega
  · simp only [isLikelyFace]
    by_cases hratio : (r.width : ℚ) / (r.height : ℚ) < 7 / 10 ∨
        (r.width : ℚ) / (r.height : ℚ) > 13 / 10
    · rw [if_pos hratio]
      simp only [eq_self_iff_true, true_iff]
      tauto
    · rw [if_neg hratio]
      push_neg at hratio
      rw [hasVariation_eq_flat, decide_eq_false_iff_not, not_lt]
      constructor
      · intro h
        exact Or.inr (Or.inr h)
      · rintro (h | h | h)
        · exact absurd h (not_lt.mpr hratio.1)
        · exact absurd h (not_lt.mpr hratio.2)
        · exact h

/-- C9.  Every detected face is a 60×60, confidence-0.7 window at a
10-aligned position lying strictly inside the raster; every sliding-window
candidate has aspect ratio exactly 1, so the aspect-ratio gate never
rejects a candidate and `isLikelyFace` reduces to the variance gate. -/
theorem spec_c9_candidate_invariants : ∀ (img : Image) (r : FaceRect),
    (r ∈ detectFaces img →
      r.width = 60 ∧ r.height = 60 ∧ r.confidence = 7 / 10 ∧
      r.x % 10 = 0 ∧ r.y % 10 = 0 ∧
      r.x + 60 ≤ img.width ∧ r.y + 60 ≤ img.height) ∧
    (r ∈ findFaceCandidates img →
      (r.width : ℚ) / (r.height : ℚ) = 1 ∧
      isLikelyFace img r = hasVariation img r) := by
  intro img r
  constructor
  · intro hmem
    rw [mem_detectFaces] at hmem
    rw [mem_findFaceCandidates] at hmem
    obtain ⟨⟨hw, hh, hc, hx10, hy10, hxlt, hylt, -⟩, -⟩ := hmem
    exact ⟨hw, hh, hc, hx10, hy10, by omega, by omega⟩
  · intro hmem
    rw [mem_findFaceCandidates] at hmem
    obtain ⟨hw, hh, -, -, -, -, -, -⟩ := hmem
    refine ⟨?_, isLikelyFace_sixty img r hw hh⟩
    rw [hw, hh]
    norm_num

/-- C9 witness: the invariants at the face the detector finds in `img61`. -/
theorem spec_c9_candidate_invariants_witness :
    ((0 : ℕ) + 60 ≤ img61.width ∧ (0 : ℕ) + 60 ≤ img61.height) ∧
    isLikelyFace img61 ⟨0, 0, 60, 60, 7 / 10⟩ =
      hasVariation img61 ⟨0, 0, 60, 60, 7 / 10⟩ := by
  have h := spec_c9_candidate_invariants img61 ⟨0, 0, 60, 60, 7 / 10⟩
  have hmem : (⟨0, 0, 60, 60, 7 / 10⟩ : FaceRect) ∈ detectFaces img61 := by
    rw [detect_img61]
    exact List.mem_singleton.mpr rfl
  have hcand : (⟨0, 0, 60, 60, 7 / 10⟩ : FaceRect) ∈ findFaceCandidates img61 := by
    rw [candidates_img61]
    exact List.mem_singleton.mpr rfl
  exact ⟨⟨(h.1 hmem).2.2.2.2.2.1, (h.1 hmem).2.2.2.2.2.2⟩, (h.2 hcand).2⟩

/-- C6 counterexample.  No 60×60 raster can produce a candidate: the loop
bound `y < height - 60` is strict, so even the most favorable 60×60 raster
(every pixel skin-colored, with texture) yields an empty candidate list. -/
theorem spec_c6_sixty_counterexample :
    imgSixty.width = 60 ∧ imgSixty.height = 60 ∧
    isSkinColor skinC = true ∧ isSkinColor skinD = true ∧
    findFaceCandidates imgSixty = [] ∧ detectFaces imgSixty = [] := by
  have h : findFaceCandidates imgSixty = [] :=
    findFaceCandidates_eq_nil_of_small (Or.inl (by decide))
  exact ⟨rfl, rfl, by decide, by decide, h, by rw [detectFaces, h]; rfl⟩

/-- C6 amended.  The locator needs at minimum a 61×61 raster: any raster
with width or height at most 60 (60×60 included) yields no candidates, a
61×61 raster can produce a detected face, and every generated candidate
window lies entirely within the raster bounds. -/
theorem spec_c6_minimum_raster_amended :
    (∀ img : Image, img.width ≤ 60 ∨ img.height ≤ 60 →
      findFaceCandidates img = [] ∧ detectFaces img = []) ∧
    (img61.width = 61 ∧ img61.height = 61 ∧
      detectFaces img61 = [⟨0, 0, 60, 60, 7 / 10⟩]) ∧
    (∀ (img : Image) (r : FaceRect), r ∈ findFaceCandidates img →
      r.x + r.width ≤ img.width ∧ r.y + r.height ≤ img.height) := by
  refine ⟨fun img h => ?_, ⟨rfl, rfl, detect_img61⟩, fun img r hmem => ?_⟩
  · have hc := findFaceCandidates_eq_nil_of_small h
    exact ⟨hc, by rw [detectFaces, hc]; rfl⟩
  · rw [mem_findFaceCandidates] at hmem
    obtain ⟨hw, hh, -, -, -, hxlt, hylt, -⟩ := hmem
    rw [hw, hh]
    omega

/-- C6 witness: the amended theorem applied to a concrete 50×100 raster. -/
theorem spec_c6_minimum_raster_witness :
    findFaceCandidates imgSmall = [] ∧ detectFaces imgSmall = [] :=
  spec_c6_minimum_raster_amended.1 imgSmall (Or.inl (by decide))

/-- C5 counterexample.  A raster CONTAINING a perfectly uniform 60×60 solid
skin-colored block can still yield a candidate: in `imgBorder`, the pixels
at `x ≥ 1 ∧ y ≥ 1` all equal `skinC` (checked below over the whole block),
yet the window overlapping the differently-colored border has variance
above 100 and is returned. -/
theorem spec_c5_uniform_block_counterexample :
    isSkinColor skinC = true ∧
    ((List.range 60).all fun i => (List.range 60).all fun j =>
      decide (imgBorder.pix (1 + i) (1 + j) = skinC)) = true ∧
    detectFaces imgBorder = [⟨0, 0, 60, 60, 7 / 10⟩] :=
  ⟨by decide, by decide, detect_imgBorder⟩

/-- C5 amended.  A uniformly colored raster whose color fails the skin rule
yields no candidates; a raster that is ENTIRELY one solid skin color yields
zero detected faces (every window is uniform, so the variance gate rejects
it); and the 61×61 raster of two interleaved skin tones — a skin block with
injected per-pixel noise — has its candidate returned.  (A raster merely
containing a uniform block may still yield candidates from windows that
straddle the block's edge.) -/
theorem spec_c5_uniform_rasters_amended :
    (∀ (img : Image) (c : RGB),
      (∀ x y, x < img.width → y < img.height → img.pix x y = c) →
      isSkinColor c = false →
      findFaceCandidates img = [] ∧ detectFaces img = []) ∧
    (∀ (img : Image) (c : RGB),
      (∀ x y, x < img.width → y < img.height → img.pix x y = c) →
      isSkinColor c = true → detectFaces img = []) ∧
    detectFaces img61 = [⟨0, 0, 60, 60, 7 / 10⟩] := by
  refine ⟨fun img c H hc => ?_,
    fun img c H _ => detectFaces_eq_nil_of_uniform H, detect_img61⟩
  have h := findFaceCandidates_eq_nil_of_uniform_not_skin H hc
  exact ⟨h, by rw [detectFaces, h]; rfl⟩

/-- C5 witness: the amended theorem applied to a uniform blue 100×80 raster
and to a uniform skin-colored 70×70 raster. -/
theorem spec_c5_uniform_rasters_witness :
    findFaceCandidates imgBlue = [] ∧ detectFaces imgBlue = [] ∧
    detectFaces imgSkinUniform = [] :=
  ⟨(spec_c5_uniform_rasters_amended.1 imgBlue ⟨0, 0, 255⟩
      (fun _ _ _ _ => rfl) (by decide)).1,
   (spec_c5_uniform_rasters_amended.1 imgBlue ⟨0, 0, 255⟩
      (fun _ _ _ _ => rfl) (by decide)).2,
   spec_c5_uniform_rasters_amended.2.1 imgSkinUniform skinC
      (fun _ _ _ _ => rfl) (by decide)⟩

/-- C10.  For every face the detector returns, the skin-tone feature's
denominator — the sum of the three per-channel means over the face's pixels
— is strictly positive (the window passed the skin-fraction test, so it
holds a pixel with red channel above 95), and the region is nonempty; the
guarded empty-region case returns 0. -/
theorem spec_c10_skin_tone_safe : ∀ (img : Image) (r : FaceRect),
    (r ∈ detectFaces img →
      0 < ((regionPixels img r.x r.y r.width r.height).map fun p => (p.r : ℚ)).sum /
            ((regionPixels img r.x r.y r.width r.height).length : ℚ) +
          ((regionPixels img r.x r.y r.width r.height).map fun p => (p.g : ℚ)).sum /
            ((regionPixels img r.x r.y r.width r.height).length : ℚ) +
          ((regionPixels img r.x r.y r.width r.height).map fun p => (p.b : ℚ)).sum /
            ((regionPixels img r.x r.y r.width r.height).length : ℚ) ∧
      0 < (regionPixels img r.x r.y r.width r.height).length) ∧
    ((regionPixels img r.x r.y r.width r.height).length = 0 →
      getSkinToneFeature img r = 0) := by
  intro img r
  constructor
  · intro hmem
    rw [mem_detectFaces, mem_findFaceCandidates] at hmem
    obtain ⟨⟨hw, hh, -, -, -, -, -, hskin⟩, -⟩ := hmem
    rw [hw, hh]
    obtain ⟨p, hp, hps⟩ := exists_skin_of_hasSkinColor hskin
    have hn : 0 < (regionPixels img r.x r.y 60 60).length :=
      List.length_pos.mpr (List.ne_nil_of_mem hp)
    have hnq : (0 : ℚ) < ((regionPixels img r.x r.y 60 60).length : ℚ) := by
      exact_mod_cast hn
    have hpr : 95 < p.r := by
      simp only [isSkinColor, Bool.and_eq_true, decide_eq_true_eq] at hps
      exact_mod_cast hps.1.1.1.1.1.1
    have hrsum : (0 : ℚ) <
        ((regionPixels img r.x r.y 60 60).map fun p => (p.r : ℚ)).sum := by
      have hle : ((p.r : ℚ)) ≤
          ((regionPixels img r.x r.y 60 60).map fun p => (p.r : ℚ)).sum :=
        List.single_le_sum (fun x hx => by
          rw [List.mem_map] at hx
          obtain ⟨q, -, rfl⟩ := hx
          positivity) _ (List.mem_map_of_mem _ hp)
      have hq : (0 : ℚ) < (p.r : ℚ) := by
        have : 0 < p.r := by omega
        exact_mod_cast this
      linarith
    have hgsum : (0 : ℚ) ≤
        ((regionPixels img r.x r.y 60 60).map fun p => (p.g : ℚ)).sum :=
      List.sum_nonneg fun x hx => by
        rw [List.mem_map] at hx
        obtain ⟨q, -, rfl⟩ := hx
        positivity
    have hbsum : (0 : ℚ) ≤
        ((regionPixels img r.x r.y 60 60).map fun p => (p.b : ℚ)).sum :=
      List.sum_nonneg fun x hx => by
        rw [List.mem_map] at hx
        obtain ⟨q, -, rfl⟩ := hx
        positivity
    refine ⟨?_, hn⟩
    have h1 := div_pos hrsum hnq
    have h2 := div_nonneg hgsum hnq.le
    have h3 := div_nonneg hbsum hnq.le
    linarith
  · intro h0
    rw [skinTone_eq_spec, skinToneSpec]
    rw [if_pos h0]

/-! ## Feature Scorer bridges to the claim-side formulas -/

lemma brightness_eq_spec (img : Image) (face : FaceRect) :
    getAverageBrightness img face = meanBrightnessSpec img face := by
  simp only [getAverageBrightness, meanBrightnessSpec, regionQIntensities, listMean,
    regionPixels, nested_map_sum_eq_flat, nested_length_eq_flat, List.length_map]
  by_cases h : 0 < ((regionRows img face.x face.y face.width face.height).flatten).length
  · rw [if_pos h]
  · rw [if_neg h]
    have h0 : ((regionRows img face.x face.y face.width face.height).flatten).length = 0 := by
      omega
    rw [h0, Nat.cast_zero, div_zero]

lemma colorVariance_eq_spec (img : Image) (face : FaceRect) :
    getColorVariance img face = intensityVarianceSpec img face := by
  simp only [getColorVariance, intensityVarianceSpec, regionQIntensities]
  have hflat : ((regionRows img face.x face.y face.width face.height).map
      fun row => row.map qIntensity).flatten
      = (regionPixels img face.x face.y face.width face.height).map qIntensity := by
    rw [flatten_map_map]; rfl
  have hlen : (((regionRows img face.x face.y face.width face.height).map
      fun row => row.map qIntensity).map List.length).sum
      = ((regionPixels img face.x face.y face.width face.height).map qIntensity).length := by
    rw [nested_length_eq_flat, hflat]
  rw [hlen]
  set l := (regionPixels img face.x face.y face.width face.height).map qIntensity with hl
  by_cases h0 : l.length = 0
  · rw [if_pos h0]
    rw [List.length_eq_zero] at h0
    rw [h0, listVariance_nil]
  · rw [if_neg h0]
    have hsum : (((regionRows img face.x face.y face.width face.height).map
        fun row => row.map qIntensity).map List.sum).sum = l.sum := by
      rw [nested_sum_eq_flat, hflat]
    rw [hsum]
    have hmean : l.sum / (l.length : ℚ) = listMean l := rfl
    rw [hmean]
    have hvs : (((regionRows img face.x face.y face.width face.height).map
        fun row => row.map qIntensity).map
        fun row => (row.map fun v => (v - listMean l) * (v - listMean l)).sum).sum
        = (l.map fun v => (v - listMean l) * (v - listMean l)).sum := by
      rw [nested_map_sum_eq_flat, hflat]
    rw [hvs, listVariance]

lemma edgeDensity_eq_interior (img : Image) (face : FaceRect) :
    getEdgeDensity img face = edgeDensityInterior img face := by
  simp only [getEdgeDensity, edgeDensityInterior]
  set ys := edgeRows img face with hys
  set xs := edgeCols img face with hxs
  have hcells : (ys.flatMap fun y => xs.map fun x => (x, y))
      = (ys.map fun y => xs.map fun x => (x, y)).flatten := by
    rw [List.flatMap_def]
  have hcount : ∀ g : ℕ × ℕ → Bool,
      (((ys.flatMap fun y => xs.map fun x => (x, y)).filter g).length) =
      (ys.map fun y => ((xs.filter fun x => g (x, y))).length).sum := by
    intro g
    rw [hcells, ← nested_filter_length_eq_flat]
    congr 1
    rw [List.map_map]
    refine List.map_congr_left fun y _ => ?_
    rw [Function.comp_apply, List.filter_map]
    rw [List.length_map]
    rfl
  have hlen : ((ys.flatMap fun y => xs.map fun x => (x, y)).length) =
      (ys.map fun _ => xs.length).sum := by
    rw [hcells, ← nested_length_eq_flat, List.map_map]
    congr 1
    refine List.map_congr_left fun y _ => ?_
    simp
  rw [hcount, hlen]
  by_cases h : 0 < (ys.map fun _ => xs.length).sum
  · rw [if_pos h]
  · rw [if_neg h]
    have h0 : (ys.map fun _ => xs.length).sum = 0 := by omega
    rw [h0]
    norm_num

/-- C3 counterexample.  The claim's edge-density reading — interior pixels
excluding only the LAST row/column of the region — disagrees with the code,
which also excludes the FIRST row and column: on the 3×3 region of `img4`
the code's density is 0 while the claim's formula gives 1/4, so the claimed
4-tuple differs from `extractFeatures`. -/
theorem spec_c3_edge_density_counterexample :
    extractFeatures img4 rect3 ≠
      [meanBrightnessSpec img4 rect3, intensityVarianceSpec img4 rect3,
       edgeDensityClaimed img4 rect3, skinToneSpec img4 rect3] ∧
    getEdgeDensity img4 rect3 = 0 ∧
    edgeDensityClaimed img4 rect3 = 1 / 4 := by
  have h0 : getEdgeDensity img4 rect3 = 0 := by with_unfolding_all decide
  have h14 : edgeDensityClaimed img4 rect3 = 1 / 4 := by with_unfolding_all decide
  refine ⟨?_, h0, h14⟩
  intro h
  rw [extractFeatures] at h
  have h3 := congrArg (fun l => l.getD 2 0) h
  simp only [List.getD_cons_zero, List.getD_cons_succ] at h3
  rw [h0, h14] at h3
  norm_num at h3

/-- C3 amended.  The Feature Scorer produces exactly the 4 scalars
[mean brightness, intensity variance, edge density, skin-tone ratio], where
edge density counts the interior pixels excluding both the FIRST and the
last rows and columns of the region (clamped to the raster's interior), and
the other three features are as the claim states them. -/
theorem spec_c3_features_amended : ∀ (img : Image) (face : FaceRect),
    extractFeatures img face =
      [meanBrightnessSpec img face, intensityVarianceSpec img face,
       edgeDensityInterior img face, skinToneSpec img face] ∧
    (extractFeatures img face).length = 4 := by
  intro img face
  refine ⟨?_, rfl⟩
  rw [extractFeatures, brightness_eq_spec, colorVariance_eq_spec,
    edgeDensity_eq_interior, skinTone_eq_spec]

/-- C10 witness: the denominator positivity at the face detected in `img61`. -/
theorem spec_c10_skin_tone_safe_witness :
    0 < ((regionPixels img61 0 0 60 60).map fun p => (p.r : ℚ)).sum /
          ((regionPixels img61 0 0 60 60).length : ℚ) +
        ((regionPixels img61 0 0 60 60).map fun p => (p.g : ℚ)).sum /
          ((regionPixels img61 0 0 60 60).length : ℚ) +
        ((regionPixels img61 0 0 60 60).map fun p => (p.b : ℚ)).sum /
          ((regionPixels img61 0 0 60 60).length : ℚ) ∧
    0 < (regionPixels img61 0 0 60 60).length := by
  have hmem : (⟨0, 0, 60, 60, 7 / 10⟩ : FaceRect) ∈ detectFaces img61 := by
    rw [detect_img61]
    exact List.mem_singleton.mpr rfl
  exact (spec_c10_skin_tone_safe img61 ⟨0, 0, 60, 60, 7 / 10⟩).1 hmem
